import Mathlib

/-!
Verification of the convex-volume editing core of MQ2Nav
(src/meshgen/ConvexVolumeTool.cpp), shallowly embedded over exact
rational arithmetic.  Float scalars are modelled as ℚ, the external
navigation-mesh registry as an explicit list of volumes, and the two
external callbacks (rcOffsetPoly from Recast, tile resolution from the
mesh collaborator) as function parameters in an environment record.
-/

attribute [local semireducible] Rat.mul Rat.sub Rat.add Rat.inv

namespace MQ2Nav

/-- A 3D point; coordinates are exact rationals modelling the floats. -/
structure Vec3 where
  x : ℚ
  y : ℚ
  z : ℚ
deriving DecidableEq

instance : Inhabited Vec3 := ⟨⟨0, 0, 0⟩⟩

/-- Modelled from the spec: the 2D ordering comparator `cmppt` from
common/Utilities.h (not under src/): "lowest under a fixed 2D ordering
comparator (smallest horizontal-axis coordinate, tie-broken by the other
horizontal axis)". -/
def cmppt (a b : Vec3) : Bool :=
  decide (a.x < b.x) || (decide (a.x = b.x) && decide (a.z < b.z))

/-- Modelled from the spec: the strict left-of test from
common/Utilities.h (not under src/): a candidate beats the current one
iff it lies strictly to the left of the directed edge; the classic xz
cross-product sign test. -/
def isLeft (a b c : Vec3) : Bool :=
  decide ((b.x - a.x) * (c.z - a.z) - (b.z - a.z) * (c.x - a.x) < 0)

/-- Modelled from the spec: squared point distance from
common/Utilities.h (not under src/), used for the "small fixed
tolerance of the last picked point" finalize check. -/
def distSqr (a b : Vec3) : ℚ :=
  (a.x - b.x) ^ 2 + (a.y - b.y) ^ 2 + (a.z - b.z) ^ 2

/-- Index into a point list, as the C++ `pts[i]` (callers keep indices
in range). -/
def getP (pts : List Vec3) (i : Nat) : Vec3 := pts.getD i default

/-- convexhull, first phase: find the lower-leftmost point
(ConvexVolumeTool.cpp lines 29-33; the loop runs i = 1 .. n-1). -/
def lowLeft (pts : List Vec3) : Nat :=
  (List.range' 1 (pts.length - 1)).foldl
    (fun hull i => if cmppt (getP pts i) (getP pts hull) then i else hull) 0

/-- convexhull, inner scan of the gift-wrap loop (lines 40-43): starting
from endpt = 0, each j = 1 .. n-1 replaces endpt when hull == endpt or
pts[j] is strictly left of the edge (pts[hull], pts[endpt]). -/
def nextPt (pts : List Vec3) (hull : Nat) : Nat :=
  (List.range' 1 (pts.length - 1)).foldl
    (fun endpt j =>
      if hull == endpt || isLeft (getP pts hull) (getP pts endpt) (getP pts j)
      then j else endpt) 0

/-- The do-while wrap loop (lines 37-45), fuel-indexed: pushes the
current hull index, advances via nextPt, stops when the scan returns the
start index h0.  `none` models exhaustion of the fuel budget: a
terminating run of the loop pushes pairwise-distinct indices, so fuel
pts.length + 1 is exhausted only by a run of the C++ loop that never
exits. -/
def wrap (pts : List Vec3) (h0 : Nat) : Nat → Nat → List Nat → Option (List Nat)
  | 0, _, _ => none
  | fuel + 1, hull, out =>
    let out' := out ++ [hull]
    let e := nextPt pts hull
    if e = h0 then some out' else wrap pts h0 fuel e out'

/-- convexhull (lines 27-46): gift wrapping from the lower-leftmost
point. -/
def convexhull (pts : List Vec3) : Option (List Nat) :=
  let h0 := lowLeft pts
  wrap pts h0 (pts.length + 1) h0 []

/-- The exact termination condition of the do-while loop of convexhull:
iterating nextPt from the start index revisits the start index. -/
def loopTerminates (pts : List Vec3) : Prop :=
  ∃ k : Nat, 0 < k ∧ (nextPt pts)^[k] (lowLeft pts) = lowLeft pts

/-- pointInPoly (lines 48-64): crossing-number point-in-polygon test on
the xz projection.  The guard (vi.z > p.z) ≠ (vj.z > p.z) forces
vi.z ≠ vj.z, so the ℚ division is the real one wherever it is used. -/
def pointInPoly (verts : List Vec3) (p : Vec3) : Bool :=
  (List.range verts.length).foldl
    (fun c i =>
      let j := if i = 0 then verts.length - 1 else i - 1
      let vi := getP verts i
      let vj := getP verts j
      if (decide (vi.z > p.z) != decide (vj.z > p.z)) &&
         decide (p.x < (vj.x - vi.x) * (p.z - vi.z) / (vj.z - vi.z) + vi.x)
      then !c else c) false

/-- A convex volume as stored by the registry (NavMesh collaborator). -/
structure ConvexVolume where
  id : Nat
  vname : String
  verts : List Vec3
  areaType : Nat
  hmin : ℚ
  hmax : ℚ
deriving DecidableEq

instance : Inhabited ConvexVolume := ⟨⟨0, "", [], 0, 0, 0⟩⟩

/-- Index into the registry's volume list, as `GetConvexVolume(i)`. -/
def getV (vols : List ConvexVolume) (i : Nat) : ConvexVolume := vols.getD i default

/-- The external volume registry: ordered volume list plus the fresh-id
counter (spec §6: Add assigns a fresh non-zero id). -/
structure Registry where
  volumes : List ConvexVolume
  nextId : Nat
deriving DecidableEq

/-- Registry.AddConvexVolume: appends a volume under a fresh id and
returns it (the C++ call returns the new volume). -/
def addConvexVolume (r : Registry) (verts : List Vec3) (vname : String)
    (hmin hmax : ℚ) (areaType : Nat) : ConvexVolume × Registry :=
  let v : ConvexVolume := ⟨r.nextId, vname, verts, areaType, hmin, hmax⟩
  (v, ⟨r.volumes ++ [v], r.nextId + 1⟩)

/-- Registry.DeleteConvexVolumeById: removes every volume with the id
(no-op when absent). -/
def deleteConvexVolumeById (r : Registry) (id : Nat) : Registry :=
  ⟨r.volumes.filter (fun v => v.id != id), r.nextId⟩

/-- SaveEdits write-back (handleMenu lines 312-318): copies areaType,
hmin, hmax, name, verts from the edit buffer onto the stored volume. -/
def updateVolumeById (r : Registry) (id : Nat) (e : ConvexVolume) : Registry :=
  ⟨r.volumes.map (fun v =>
      if v.id = id then
        { v with areaType := e.areaType, hmin := e.hmin, hmax := e.hmax,
                 vname := e.vname, verts := e.verts }
      else v),
   r.nextId⟩

/-- ConvexVolumeToolState: the editing session (transient buffers plus
shape parameters). -/
structure ToolState where
  pts : List Vec3
  hull : List Nat
  currentVolumeId : Nat
  modified : Bool
  editVolume : ConvexVolume
  vname : String
  boxHeight : ℚ
  boxDescent : ℚ
  polyOffset : ℚ
  areaType : Nat
deriving DecidableEq

/-- ConvexVolumeToolState::reset (lines 385-393): clears pts, hull,
currentVolumeId, modified, editVolume and the name; the shape
parameters (boxHeight, boxDescent, polyOffset, areaType) are not
touched. -/
def resetState (s : ToolState) : ToolState :=
  { s with pts := [], hull := [], currentVolumeId := 0, modified := false,
           editVolume := default, vname := "" }

/-- The external collaborators CreateShape calls into: rcOffsetPoly
from Recast (result list; the empty list models a non-positive returned
vertex count, i.e. failure) and GetTilesIntersectingConvexVolume from
the mesh collaborator. -/
structure Env where
  offsetPoly : List Vec3 → ℚ → List Vec3
  tilesOf : Nat → List Nat

/-- FLT_MAX, the seed of the running minimum in CreateShape (line 540),
as an exact rational. -/
def FLT_MAX : ℚ := 340282346638528859811704183484516925440

/-- The vertices of the current hull, `verts[i] = m_pts[m_hull[i]]`
(lines 534-538). -/
def hullVerts (s : ToolState) : List Vec3 := s.hull.map (getP s.pts)

/-- ConvexVolumeToolState::CreateShape (lines 527-571).  Returns the
tiles handed to RebuildTiles, the new session state and the new
registry. -/
def CreateShape (env : Env) (s : ToolState) (r : Registry) :
    List Nat × ToolState × Registry :=
  if 2 < s.hull.length then
    let verts := hullVerts s
    let minh := ((verts.map Vec3.y).foldl min FLT_MAX) - s.boxDescent
    let maxh := minh + s.boxHeight
    if 1/100 < s.polyOffset then
      let offset := env.offsetPoly verts s.polyOffset
      if 0 < offset.length then
        let vr := addConvexVolume r offset s.vname minh maxh s.areaType
        (env.tilesOf vr.1.id, resetState s, vr.2)
      else
        ([], resetState s, r)
    else
      let vr := addConvexVolume r verts s.vname minh maxh s.areaType
      (env.tilesOf vr.1.id, resetState s, vr.2)
  else
    ([], resetState s, r)

/-- The delete-mode hit test of handleVolumeClick (line 484):
crossing-number containment in the xz projection and the height range
check. -/
def volumeHit (p : Vec3) (v : ConvexVolume) : Bool :=
  pointInPoly v.verts p && decide (v.hmin ≤ p.y) && decide (p.y ≤ v.hmax)

/-- The delete-mode scan (lines 479-491): walk the volume list in
order, stop at the first hit, return its index. -/
def findFirst {α : Type} (P : α → Bool) : List α → Option Nat
  | [] => none
  | x :: xs => if P x then some 0 else (findFirst P xs).map (· + 1)

/-- ConvexVolumeToolState::handleVolumeClick (lines 471-525).  `none`
models the branch in which the hull recomputation (convexhull) never
terminates, so no post-state exists. -/
def handleVolumeClick (env : Env) (p : Vec3) (shift alt : Bool)
    (s : ToolState) (r : Registry) : Option (List Nat × ToolState × Registry) :=
  if shift then
    match findFirst (volumeHit p) r.volumes with
    | some i =>
      let volume := getV r.volumes i
      some (env.tilesOf volume.id, s, deleteConvexVolumeById r volume.id)
    | none => some ([], s, r)
  else
    if 0 < s.pts.length ∧
       (alt = true ∨ distSqr p (getP s.pts (s.pts.length - 1)) < 1/25) then
      some (CreateShape env s r)
    else
      let pts' := s.pts ++ [p]
      if 2 ≤ pts'.length then
        match convexhull pts' with
        | some h => some ([], { s with pts := pts', hull := h }, r)
        | none => none
      else
        some ([], { s with pts := pts', hull := [] }, r)

/-- The tool wrapper: the m_editing flag lives on ConvexVolumeTool, the
session state on ConvexVolumeToolState. -/
structure Tool where
  editing : Bool
  tstate : ToolState
deriving DecidableEq

/-- ConvexVolumeTool::handleClick (lines 334-351): switches to editing
mode when no volume is selected, then returns untouched unless editing;
otherwise forwards to handleVolumeClick and requests the returned tiles
for rebuild. -/
def handleClick (env : Env) (p : Vec3) (shift alt : Bool)
    (t : Tool) (r : Registry) : Option (List Nat × Tool × Registry) :=
  let editing := if t.tstate.currentVolumeId = 0 then true else t.editing
  if editing = false then
    some ([], { t with editing := editing }, r)
  else
    match handleVolumeClick env p shift alt t.tstate r with
    | some tsr => some (tsr.1, ⟨editing, tsr.2.1⟩, tsr.2.2)
    | none => none

/-- The user-facing operations of the session (handleMenu buttons and
mesh clicks). -/
inductive Op where
  | createNew
  | select (i : Nat)
  | deleteSel
  | commitBtn
  | cancel
  | click (p : Vec3) (shift alt : Bool)
  | saveEdits

/-- One operation applied to the tool plus registry.  Each branch
mirrors the guard under which the corresponding UI action can fire in
handleMenu / handleClick; `none` again models a diverging hull
recomputation. -/
def step (env : Env) (op : Op) (tr : Tool × Registry) : Option (Tool × Registry) :=
  match op with
  | .createNew =>
    some (⟨true, resetState tr.1.tstate⟩, tr.2)
  | .select i =>
    match tr.2.volumes.get? i with
    | some vol =>
      some (⟨false, { resetState tr.1.tstate with
                        editVolume := vol, currentVolumeId := vol.id }⟩, tr.2)
    | none => some tr
  | .deleteSel =>
    if tr.1.editing = false ∧ tr.1.tstate.currentVolumeId ≠ 0 then
      some (⟨tr.1.editing, { tr.1.tstate with currentVolumeId := 0 }⟩,
            deleteConvexVolumeById tr.2 tr.1.tstate.currentVolumeId)
    else some tr
  | .commitBtn =>
    if tr.1.editing = true ∧ 2 < tr.1.tstate.hull.length then
      let out := CreateShape env tr.1.tstate tr.2
      some (⟨false, out.2.1⟩, out.2.2)
    else some tr
  | .cancel =>
    if tr.1.editing = true then
      some (⟨false, resetState tr.1.tstate⟩, tr.2)
    else some tr
  | .click p shift alt =>
    match handleClick env p shift alt tr.1 tr.2 with
    | some out => some (out.2.1, out.2.2)
    | none => none
  | .saveEdits =>
    if tr.1.editing = false ∧ tr.1.tstate.currentVolumeId ≠ 0 ∧
       tr.1.tstate.modified = true then
      some (tr.1, updateVolumeById tr.2 tr.1.tstate.currentVolumeId tr.1.tstate.editVolume)
    else some tr

/-- A sequence of operations, run left to right. -/
def runOps (env : Env) (ops : List Op) (tr : Tool × Registry) :
    Option (Tool × Registry) :=
  ops.foldlM (fun st op => step env op st) tr

/-- The freshly initialized tool: empty buffers, no selection, editing
off; the four shape parameters are arbitrary. -/
def initTool (bh bd po : ℚ) (at0 : Nat) : Tool :=
  ⟨false, ⟨[], [], 0, false, default, "", bh, bd, po, at0⟩⟩

/-- The session invariant behind claim C8: editing mode excludes a
selection, and a selection excludes live point/hull buffers. -/
def Inv (tr : Tool × Registry) : Prop :=
  (tr.1.editing = true → tr.1.tstate.currentVolumeId = 0) ∧
  (tr.1.tstate.currentVolumeId ≠ 0 → tr.1.tstate.pts = [] ∧ tr.1.tstate.hull = [])

instance (tr : Tool × Registry) : Decidable (Inv tr) := by
  unfold Inv; infer_instance

/-! ### Concrete sample data used by witnesses and counterexamples -/

/-- An environment whose offsetter always fails (returns no vertices)
and whose tile resolution returns the volume id as a single tile. -/
def envN : Env := ⟨fun _ _ => [], fun i => [i]⟩

/-- A registry with no volumes and fresh id 1. -/
def r0 : Registry := ⟨[], 1⟩

/-- An axis-aligned square footprint in the xz plane. -/
def sqVerts : List Vec3 := [⟨0, 0, 0⟩, ⟨10, 0, 0⟩, ⟨10, 0, 10⟩, ⟨0, 0, 10⟩]

/-- A stored volume over the square with height range [0, 10]. -/
def vol5 : ConvexVolume := ⟨5, "", sqVerts, 0, 0, 10⟩

/-- A session holding a committed-ready triangle with poly offset 1
(the offset branch of CreateShape is taken). -/
def triOff : ToolState :=
  ⟨[⟨0, 1, 0⟩, ⟨4, 2, 0⟩, ⟨0, 3, 4⟩], [0, 1, 2], 0, false, default, "t", 3, 1, 1, 7⟩

/-- The same triangle session with poly offset 0 (raw-vertex branch). -/
def triRaw : ToolState :=
  ⟨[⟨0, 1, 0⟩, ⟨4, 2, 0⟩, ⟨0, 3, 4⟩], [0, 1, 2], 0, false, default, "t", 3, 1, 0, 7⟩

/-- A session holding two picked points and their two-point hull. -/
def twoPtState : ToolState :=
  ⟨[⟨0, 0, 0⟩, ⟨4, 0, 0⟩], [0, 1], 0, false, default, "", 5, 0, 0, 3⟩

/-- A tool in the Selected state (volume 5 loaded, editing off). -/
def selTool : Tool := ⟨false, ⟨[], [], 5, false, vol5, "", 1, 0, 0, 0⟩⟩

/-- The three colinear picks on which the gift wrap never terminates:
the lower-leftmost point is the third pick. -/
def cPts : List Vec3 := [⟨0, 0, 1⟩, ⟨0, 0, 2⟩, ⟨0, 0, 0⟩]

/-! ### Shared helper lemmas -/

/-- CreateShape always leaves the session reset, in every branch. -/
lemma createShape_state (env : Env) (s : ToolState) (r : Registry) :
    (CreateShape env s r).2.1 = resetState s := by
  unfold CreateShape
  dsimp only
  repeat' split
  all_goals rfl

/-- A left fold of `min` ends at its seed or at a list element. -/
lemma foldl_min_choice (l : List ℚ) : ∀ a : ℚ, l.foldl min a = a ∨ l.foldl min a ∈ l := by
  induction l with
  | nil => intro a; left; rfl
  | cons x xs ih =>
    intro a
    rcases ih (min a x) with h | h
    · rcases min_choice a x with hm | hm
      · left; rw [List.foldl_cons, h, hm]
      · right; rw [List.foldl_cons, h, hm]; exact List.mem_cons_self x xs
    · right; exact List.mem_cons_of_mem x h

/-- A left fold of `min` is bounded by its seed. -/
lemma foldl_min_le_init (l : List ℚ) : ∀ a : ℚ, l.foldl min a ≤ a := by
  induction l with
  | nil => intro a; exact le_refl a
  | cons x xs ih =>
    intro a
    calc (x :: xs).foldl min a = xs.foldl min (min a x) := List.foldl_cons ..
    _ ≤ min a x := ih (min a x)
    _ ≤ a := min_le_left a x

/-- A left fold of `min` is bounded by every list element. -/
lemma foldl_min_le_mem (l : List ℚ) :
    ∀ (a y : ℚ), y ∈ l → l.foldl min a ≤ y := by
  induction l with
  | nil => intro a y hy; exact absurd hy (List.not_mem_nil y)
  | cons x xs ih =>
    intro a y hy
    rcases List.mem_cons.mp hy with rfl | hy
    · calc (y :: xs).foldl min a = xs.foldl min (min a y) := List.foldl_cons ..
      _ ≤ min a y := foldl_min_le_init xs (min a y)
      _ ≤ y := min_le_right a y
    · exact ih (min a x) y hy

/-- The first-hit scan returns the least index satisfying the
predicate. -/
lemma findFirst_eq_of_first {α : Type} (P : α → Bool) (dflt : α) :
    ∀ (l : List α) (i : Nat), i < l.length →
      (∀ j, j < i → P (l.getD j dflt) = false) →
      P (l.getD i dflt) = true →
      findFirst P l = some i := by
  intro l
  induction l with
  | nil => intro i hi _ _; exact absurd hi (Nat.not_lt_zero i)
  | cons x xs ih =>
    intro i hi hj hh
    cases i with
    | zero =>
      have hx : P x = true := hh
      simp [findFirst, hx]
    | succ n =>
      have hx : P x = false := hj 0 (Nat.succ_pos n)
      have hrec : findFirst P xs = some n := by
        refine ih n (by simpa using hi) (fun j hjn => ?_) (by simpa using hh)
        simpa using hj (j + 1) (by omega)
      simp [findFirst, hx, hrec]

/-- The common shift-click deletion behaviour of handleVolumeClick:
given the least hit index, the state is untouched, the hit volume's
tiles are requested, and that volume is deleted by id. -/
lemma handleVolumeClick_shift_delete (env : Env) (p : Vec3) (alt : Bool)
    (s : ToolState) (r : Registry) (i : Nat)
    (hi : i < r.volumes.length)
    (hfirst : ∀ j, j < i → volumeHit p (getV r.volumes j) = false)
    (hhit : volumeHit p (getV r.volumes i) = true) :
    handleVolumeClick env p true alt s r =
      some (env.tilesOf (getV r.volumes i).id, s,
            deleteConvexVolumeById r (getV r.volumes i).id) := by
  have hf : findFirst (volumeHit p) r.volumes = some i :=
    findFirst_eq_of_first (volumeHit p) default r.volumes i hi hfirst hhit
  unfold handleVolumeClick
  rw [if_pos rfl, hf]

/-- Both candidate orders of a two-point wrap: the strict left test on
a degenerate (repeated-endpoint) triple is always false. -/
lemma isLeft_self (a b : Vec3) : isLeft a b a = false := by
  simp [isLeft, sub_self]

/-- The lower-leftmost index of a two-point list. -/
lemma lowLeft_pair (p q : Vec3) : lowLeft [p, q] = if cmppt q p then 1 else 0 := by
  have h : lowLeft [p, q] =
      List.foldl (fun hull i =>
        if cmppt (getP [p, q] i) (getP [p, q] hull) then i else hull) 0 [1] := rfl
  rw [h]
  simp [getP]

/-- The gift-wrap scan from index 1 of a two-point list returns 0. -/
lemma nextPt_pair_one (p q : Vec3) : nextPt [p, q] 1 = 0 := by
  have h : nextPt [p, q] 1 =
      if (1 == 0) || isLeft (getP [p, q] 1) (getP [p, q] 0) (getP [p, q] 1)
      then 1 else 0 := rfl
  rw [h]
  simp [getP, isLeft_self]

/-- convexhull on exactly two points terminates with a two-element
hull: both indices, starting from the lower-leftmost. -/
lemma convexhull_pair (p q : Vec3) :
    convexhull [p, q] = some (if cmppt q p then [1, 0] else [0, 1]) := by
  have hcv : convexhull [p, q] = wrap [p, q] (lowLeft [p, q]) 3 (lowLeft [p, q]) [] := rfl
  rw [hcv, lowLeft_pair]
  by_cases hc : cmppt q p = true
  · rw [if_pos hc, if_pos hc]
    have h1 : wrap [p, q] 1 3 1 [] =
        if nextPt [p, q] 1 = 1 then some [1] else wrap [p, q] 1 2 (nextPt [p, q] 1) [1] := rfl
    rw [h1, nextPt_pair_one]
    rw [if_neg (by decide)]
    rfl
  · rw [if_neg hc, if_neg hc]
    have h2 : wrap [p, q] 0 3 0 [] =
        if nextPt [p, q] 1 = 0 then some [0, 1]
        else wrap [p, q] 0 1 (nextPt [p, q] 1) [0, 1] := rfl
    rw [h2, nextPt_pair_one]
    rfl

/-! ### Claims -/

/-- C5: invoking Commit when hull.size() ≤ 2 creates no volume and
requests no tile rebuilds, yet still resets the session (points, hull,
selection and edit buffer cleared) — a silent no-op. -/
theorem C5_commit_noop_resets (env : Env) (s : ToolState) (r : Registry)
    (h : s.hull.length ≤ 2) :
    CreateShape env s r = ([], resetState s, r) ∧
    (resetState s).pts = [] ∧ (resetState s).hull = [] ∧
    (resetState s).currentVolumeId = 0 ∧ (resetState s).editVolume = default ∧
    (resetState s).modified = false := by
  refine ⟨?_, rfl, rfl, rfl, rfl, rfl⟩
  unfold CreateShape
  rw [if_neg (by omega)]

/-- C5 witness: committing a two-point session is a silent no-op that
resets the session. -/
theorem C5_commit_noop_resets_witness :
    twoPtState.hull.length ≤ 2 ∧
    (CreateShape envN twoPtState r0 = ([], resetState twoPtState, r0) ∧
     (resetState twoPtState).pts = [] ∧ (resetState twoPtState).hull = [] ∧
     (resetState twoPtState).currentVolumeId = 0 ∧
     (resetState twoPtState).editVolume = default ∧
     (resetState twoPtState).modified = false) :=
  ⟨by decide, C5_commit_noop_resets envN twoPtState r0 (by decide)⟩

/-- C10: every session reset (Cancel, Commit whether or not a volume
was created, selecting an existing volume) clears points, hull,
currentVolumeId, the edit buffer, the dirty flag and the name, but
leaves boxHeight, boxDescent, polyOffset and areaType unchanged. -/
theorem C10_reset_frame (env : Env) (s : ToolState) (t : Tool) (r : Registry)
    (i : Nat) (vol : ConvexVolume)
    (ht : t.editing = true) (hv : r.volumes.get? i = some vol) :
    ((resetState s).pts = [] ∧ (resetState s).hull = [] ∧
     (resetState s).currentVolumeId = 0 ∧ (resetState s).modified = false ∧
     (resetState s).editVolume = default ∧ (resetState s).vname = "") ∧
    ((resetState s).boxHeight = s.boxHeight ∧
     (resetState s).boxDescent = s.boxDescent ∧
     (resetState s).polyOffset = s.polyOffset ∧
     (resetState s).areaType = s.areaType) ∧
    (CreateShape env s r).2.1 = resetState s ∧
    step env .cancel (t, r) = some (⟨false, resetState t.tstate⟩, r) ∧
    step env (.select i) (t, r) =
      some (⟨false, { resetState t.tstate with
                        editVolume := vol, currentVolumeId := vol.id }⟩, r) := by
  refine ⟨⟨rfl, rfl, rfl, rfl, rfl, rfl⟩, ⟨rfl, rfl, rfl, rfl⟩,
    createShape_state env s r, ?_, ?_⟩
  · simp [step, ht]
  · have hv' : r.volumes[i]? = some vol := by
      rw [← List.get?_eq_getElem?]; exact hv
    simp [step, hv']

/-- C10 witness: the reset-frame property at a concrete editing tool
and one-volume registry. -/
theorem C10_reset_frame_witness :
    (⟨true, triRaw⟩ : Tool).editing = true ∧
    (⟨[vol5], 6⟩ : Registry).volumes.get? 0 = some vol5 ∧
    (((resetState twoPtState).pts = [] ∧ (resetState twoPtState).hull = [] ∧
      (resetState twoPtState).currentVolumeId = 0 ∧
      (resetState twoPtState).modified = false ∧
      (resetState twoPtState).editVolume = default ∧
      (resetState twoPtState).vname = "") ∧
     ((resetState twoPtState).boxHeight = twoPtState.boxHeight ∧
      (resetState twoPtState).boxDescent = twoPtState.boxDescent ∧
      (resetState twoPtState).polyOffset = twoPtState.polyOffset ∧
      (resetState twoPtState).areaType = twoPtState.areaType) ∧
     (CreateShape envN twoPtState ⟨[vol5], 6⟩).2.1 = resetState twoPtState ∧
     step envN .cancel (⟨true, triRaw⟩, ⟨[vol5], 6⟩) =
       some (⟨false, resetState triRaw⟩, ⟨[vol5], 6⟩) ∧
     step envN (.select 0) (⟨true, triRaw⟩, ⟨[vol5], 6⟩) =
       some (⟨false, { resetState triRaw with
                         editVolume := vol5, currentVolumeId := vol5.id }⟩,
             ⟨[vol5], 6⟩)) :=
  ⟨rfl, rfl, C10_reset_frame envN twoPtState ⟨true, triRaw⟩ ⟨[vol5], 6⟩ 0 vol5 rfl rfl⟩

/-- C1 counterexample: with polyOffset above the epsilon and a failing
offsetter, the commit IS aborted — the registry stays empty, so no
volume with the raw hull vertices is created, contradicting the claimed
fallback. -/
theorem C1_counterexample :
    2 < triOff.hull.length ∧ (1 : ℚ) / 100 < triOff.polyOffset ∧
    envN.offsetPoly (hullVerts triOff) triOff.polyOffset = [] ∧
    (CreateShape envN triOff r0).2.2.volumes = [] ∧
    (CreateShape envN triOff r0).1 = [] := by
  decide

/-- C1 amended: when polyOffset exceeds the epsilon and the offsetter
reports failure (zero output vertices), no volume is created and no
tiles are requested — the commit is silently aborted, though the
session is still reset. -/
theorem C1_offset_failure_aborts (env : Env) (s : ToolState) (r : Registry)
    (h2 : 2 < s.hull.length) (hp : 1 / 100 < s.polyOffset)
    (hf : env.offsetPoly (hullVerts s) s.polyOffset = []) :
    CreateShape env s r = ([], resetState s, r) := by
  unfold CreateShape
  rw [if_pos h2]
  dsimp only
  rw [if_pos hp, hf]
  simp

/-- C1 witness: the amended abort behaviour at the concrete triangle
session and failing offsetter. -/
theorem C1_offset_failure_aborts_witness :
    2 < triOff.hull.length ∧ (1 : ℚ) / 100 < triOff.polyOffset ∧
    envN.offsetPoly (hullVerts triOff) triOff.polyOffset = [] ∧
    CreateShape envN triOff r0 = ([], resetState triOff, r0) :=
  ⟨by decide, by decide, rfl,
   C1_offset_failure_aborts envN triOff r0 (by decide) (by decide) rfl⟩

/-- C2 counterexample: a two-point input yields the two-element hull
[0, 1], not an empty hull, and after picking two points the session's
hull buffer holds [0, 1], not the empty buffer the claim asserts below
three points. -/
theorem C2_counterexample :
    convexhull [⟨0, 0, 0⟩, ⟨1, 0, 0⟩] = some [0, 1] ∧
    (runOps envN [.click ⟨0, 0, 0⟩ false false, .click ⟨1, 0, 0⟩ false false]
        (initTool 1 0 0 0, r0)).map (fun st => st.1.tstate.hull) = some [0, 1] := by
  decide

/-- C2 amended: with 0 or 1 points the session clears the hull without
invoking the hull builder, so the hull buffer is empty only below two
points; invoked on a two-point input, the builder terminates with a
two-element (non-empty) hull. -/
theorem C2_degenerate_hull (env : Env) (p : Vec3) (alt : Bool)
    (s : ToolState) (r : Registry) (hs : s.pts = []) :
    (∀ a b : Vec3, ∃ l, convexhull [a, b] = some l ∧ l.length = 2) ∧
    handleVolumeClick env p false alt s r =
      some ([], { s with pts := [p], hull := [] }, r) := by
  constructor
  · intro a b
    refine ⟨if cmppt b a then [1, 0] else [0, 1], convexhull_pair a b, ?_⟩
    by_cases hc : cmppt b a = true <;> simp [hc]
  · unfold handleVolumeClick
    simp [hs]

/-- C2 witness: clicking on an empty session appends the point and
leaves the hull buffer empty. -/
theorem C2_degenerate_hull_witness :
    (initTool 1 0 0 0).tstate.pts = [] ∧
    ((∀ a b : Vec3, ∃ l, convexhull [a, b] = some l ∧ l.length = 2) ∧
     handleVolumeClick envN ⟨2, 0, 0⟩ false false (initTool 1 0 0 0).tstate r0 =
       some ([], { (initTool 1 0 0 0).tstate with pts := [⟨2, 0, 0⟩], hull := [] }, r0)) :=
  ⟨rfl, C2_degenerate_hull envN ⟨2, 0, 0⟩ false (initTool 1 0 0 0).tstate r0 rfl⟩

/-- A large square volume, first in the registry. -/
def volA : ConvexVolume := ⟨1, "", sqVerts, 0, 0, 10⟩

/-- A smaller square volume nested inside volA, second in the
registry. -/
def volB : ConvexVolume := ⟨2, "", [⟨4, 0, 4⟩, ⟨6, 0, 4⟩, ⟨6, 0, 6⟩, ⟨4, 0, 6⟩], 0, 0, 10⟩

/-- A registry holding the overlapping pair volA, volB in that order. -/
def rAB : Registry := ⟨[volA, volB], 3⟩

/-- A tool that is editing with an in-progress triangle session. -/
def edTool : Tool := ⟨true, triRaw⟩

/-- C3: in delete-by-click, a registry volume is a hit iff the
crossing-number test puts the click inside its polygon and
hmin ≤ p.y ≤ hmax; among several containing volumes, the first in
registry iteration order is the one deleted. -/
theorem C3_delete_hit_first_in_order (env : Env) (p : Vec3) (alt : Bool)
    (s : ToolState) (r : Registry) (i : Nat)
    (hi : i < r.volumes.length)
    (hfirst : ∀ j, j < i → volumeHit p (getV r.volumes j) = false)
    (hhit : volumeHit p (getV r.volumes i) = true) :
    (∀ v : ConvexVolume, volumeHit p v = true ↔
        (pointInPoly v.verts p = true ∧ v.hmin ≤ p.y ∧ p.y ≤ v.hmax)) ∧
    handleVolumeClick env p true alt s r =
      some (env.tilesOf (getV r.volumes i).id, s,
            deleteConvexVolumeById r (getV r.volumes i).id) := by
  refine ⟨?_, handleVolumeClick_shift_delete env p alt s r i hi hfirst hhit⟩
  intro v
  simp [volumeHit, and_assoc]

/-- C3 witness: the click point lies in both overlapping volumes, and
the first one in registry order (the larger volA) is deleted, not the
smaller/nearer volB. -/
theorem C3_delete_hit_first_in_order_witness :
    0 < rAB.volumes.length ∧
    volumeHit ⟨5, 5, 5⟩ (getV rAB.volumes 0) = true ∧
    volumeHit ⟨5, 5, 5⟩ (getV rAB.volumes 1) = true ∧
    ((∀ v : ConvexVolume, volumeHit ⟨5, 5, 5⟩ v = true ↔
        (pointInPoly v.verts ⟨5, 5, 5⟩ = true ∧ v.hmin ≤ (5 : ℚ) ∧ (5 : ℚ) ≤ v.hmax)) ∧
     handleVolumeClick envN ⟨5, 5, 5⟩ true false twoPtState rAB =
       some (envN.tilesOf (getV rAB.volumes 0).id, twoPtState,
             deleteConvexVolumeById rAB (getV rAB.volumes 0).id)) :=
  ⟨by decide, by decide, by decide,
   C3_delete_hit_first_in_order envN ⟨5, 5, 5⟩ false twoPtState rAB 0 (by decide)
     (fun j hj => absurd hj (Nat.not_lt_zero j)) (by decide)⟩

/-- C7 counterexample: in the Selected state (currentVolumeId = 5,
editing off), a shift-click at a point that hits the stored volume
deletes nothing — handleClick returns everything unchanged, so the hit
test does not run in every state. -/
theorem C7_counterexample :
    volumeHit ⟨5, 5, 5⟩ vol5 = true ∧
    selTool.tstate.currentVolumeId ≠ 0 ∧ selTool.editing = false ∧
    handleClick envN ⟨5, 5, 5⟩ true false selTool ⟨[vol5], 6⟩ =
      some ([], selTool, ⟨[vol5], 6⟩) := by
  decide

/-- C7 amended: the shift-click hit test runs only when the tool is in
editing mode or no volume is selected (which switches editing on); when
it runs and a volume matches, that volume is deleted and its
intersecting tiles are requested. -/
theorem C7_shift_delete_needs_editing (env : Env) (p : Vec3) (alt : Bool)
    (t : Tool) (r : Registry) (i : Nat)
    (hmode : t.tstate.currentVolumeId = 0 ∨ t.editing = true)
    (hi : i < r.volumes.length)
    (hfirst : ∀ j, j < i → volumeHit p (getV r.volumes j) = false)
    (hhit : volumeHit p (getV r.volumes i) = true) :
    handleClick env p true alt t r =
      some (env.tilesOf (getV r.volumes i).id,
            ⟨if t.tstate.currentVolumeId = 0 then true else t.editing, t.tstate⟩,
            deleteConvexVolumeById r (getV r.volumes i).id) := by
  have hvc := handleVolumeClick_shift_delete env p alt t.tstate r i hi hfirst hhit
  have he : (if t.tstate.currentVolumeId = 0 then true else t.editing) = true := by
    rcases hmode with h | h
    · rw [if_pos h]
    · by_cases h0 : t.tstate.currentVolumeId = 0
      · rw [if_pos h0]
      · rw [if_neg h0]; exact h
  unfold handleClick
  dsimp only
  simp [he, hvc]

/-- C7 witness: the amended behaviour at an editing tool over the
two-volume registry. -/
theorem C7_shift_delete_needs_editing_witness :
    (edTool.tstate.currentVolumeId = 0 ∨ edTool.editing = true) ∧
    0 < rAB.volumes.length ∧
    volumeHit ⟨5, 5, 5⟩ (getV rAB.volumes 0) = true ∧
    handleClick envN ⟨5, 5, 5⟩ true false edTool rAB =
      some (envN.tilesOf (getV rAB.volumes 0).id,
            ⟨if edTool.tstate.currentVolumeId = 0 then true else edTool.editing,
             edTool.tstate⟩,
            deleteConvexVolumeById rAB (getV rAB.volumes 0).id) :=
  ⟨Or.inl rfl, by decide, by decide,
   C7_shift_delete_needs_editing envN ⟨5, 5, 5⟩ false edTool rAB 0 (Or.inl rfl)
     (by decide) (fun j hj => absurd hj (Nat.not_lt_zero j)) (by decide)⟩

/-- C4: when Commit succeeds (hull.size() > 2 and a volume is actually
created), the created volume's hmin is the minimum vertical coordinate
over the hull points minus boxDescent, and its hmax is hmin plus
boxHeight. -/
theorem C4_commit_height_bounds (env : Env) (s : ToolState) (r : Registry)
    (h2 : 2 < s.hull.length)
    (hy : ∀ y ∈ (hullVerts s).map Vec3.y, y < FLT_MAX)
    (hc : ¬ (1 / 100 < s.polyOffset) ∨ env.offsetPoly (hullVerts s) s.polyOffset ≠ []) :
    ∃ v m, (CreateShape env s r).2.2.volumes = r.volumes ++ [v] ∧
      m ∈ (hullVerts s).map Vec3.y ∧ (∀ y ∈ (hullVerts s).map Vec3.y, m ≤ y) ∧
      v.hmin = m - s.boxDescent ∧ v.hmax = v.hmin + s.boxHeight := by
  have hlen : 0 < ((hullVerts s).map Vec3.y).length := by
    simp [hullVerts]
    omega
  obtain ⟨y0, hy0⟩ := List.exists_mem_of_length_pos hlen
  have hmem : ((hullVerts s).map Vec3.y).foldl min FLT_MAX ∈ (hullVerts s).map Vec3.y := by
    rcases foldl_min_choice ((hullVerts s).map Vec3.y) FLT_MAX with h | h
    · exfalso
      have h1 : ((hullVerts s).map Vec3.y).foldl min FLT_MAX ≤ y0 :=
        foldl_min_le_mem _ FLT_MAX y0 hy0
      have h2' : y0 < FLT_MAX := hy y0 hy0
      rw [h] at h1
      exact absurd (lt_of_le_of_lt h1 h2') (lt_irrefl _)
    · exact h
  have hle : ∀ y ∈ (hullVerts s).map Vec3.y,
      ((hullVerts s).map Vec3.y).foldl min FLT_MAX ≤ y :=
    fun y hy' => foldl_min_le_mem _ FLT_MAX y hy'
  unfold CreateShape
  rw [if_pos h2]
  dsimp only
  by_cases hp : 1 / 100 < s.polyOffset
  · rcases hc with hcl | hcr
    · exact absurd hp hcl
    · rw [if_pos hp, if_pos (List.length_pos.mpr hcr)]
      exact ⟨⟨r.nextId, s.vname, env.offsetPoly (hullVerts s) s.polyOffset, s.areaType,
        ((hullVerts s).map Vec3.y).foldl min FLT_MAX - s.boxDescent,
        ((hullVerts s).map Vec3.y).foldl min FLT_MAX - s.boxDescent + s.boxHeight⟩,
        ((hullVerts s).map Vec3.y).foldl min FLT_MAX,
        by simp [addConvexVolume], hmem, hle, rfl, rfl⟩
  · rw [if_neg hp]
    exact ⟨⟨r.nextId, s.vname, hullVerts s, s.areaType,
      ((hullVerts s).map Vec3.y).foldl min FLT_MAX - s.boxDescent,
      ((hullVerts s).map Vec3.y).foldl min FLT_MAX - s.boxDescent + s.boxHeight⟩,
      ((hullVerts s).map Vec3.y).foldl min FLT_MAX,
      by simp [addConvexVolume], hmem, hle, rfl, rfl⟩

/-- C4 witness: committing the concrete triangle session (poly offset
0) creates a volume with hmin = 1 - 1 = 0 and hmax = 0 + 3 = 3. -/
theorem C4_commit_height_bounds_witness :
    2 < triRaw.hull.length ∧
    (∀ y ∈ (hullVerts triRaw).map Vec3.y, y < FLT_MAX) ∧
    ¬ ((1 : ℚ) / 100 < triRaw.polyOffset) ∧
    (∃ v m, (CreateShape envN triRaw r0).2.2.volumes = r0.volumes ++ [v] ∧
      m ∈ (hullVerts triRaw).map Vec3.y ∧
      (∀ y ∈ (hullVerts triRaw).map Vec3.y, m ≤ y) ∧
      v.hmin = m - triRaw.boxDescent ∧ v.hmax = v.hmin + triRaw.boxHeight) :=
  ⟨by decide, by decide, by decide,
   C4_commit_height_bounds envN triRaw r0 (by decide) (by decide) (Or.inl (by decide))⟩

/-- C6: in the Collecting state with a non-empty points buffer, a
non-shift click commits the shape iff alt is active or the point is
within the fixed tolerance of the last pick; otherwise it appends the
point and recomputes the hull (the buffer now necessarily holds ≥ 2
points). -/
theorem C6_collecting_click (env : Env) (p : Vec3) (alt : Bool) (s : ToolState)
    (r : Registry) (hne : s.pts ≠ []) :
    ((alt = true ∨ distSqr p (getP s.pts (s.pts.length - 1)) < 1 / 25) →
       handleVolumeClick env p false alt s r = some (CreateShape env s r)) ∧
    (¬ (alt = true ∨ distSqr p (getP s.pts (s.pts.length - 1)) < 1 / 25) →
       2 ≤ (s.pts ++ [p]).length ∧
       ∀ hl, convexhull (s.pts ++ [p]) = some hl →
         handleVolumeClick env p false alt s r =
           some ([], { s with pts := s.pts ++ [p], hull := hl }, r)) := by
  have hpos : 0 < s.pts.length := List.length_pos.mpr hne
  constructor
  · intro hcommit
    unfold handleVolumeClick
    rw [if_neg (show ¬(false = true) by decide)]
    rw [if_pos ⟨hpos, hcommit⟩]
  · intro hnc
    have hlen : 2 ≤ (s.pts ++ [p]).length := by
      simp
      omega
    refine ⟨hlen, fun hl hhl => ?_⟩
    unfold handleVolumeClick
    rw [if_neg (show ¬(false = true) by decide)]
    rw [if_neg (fun h => hnc h.2)]
    dsimp only
    rw [if_pos hlen, hhl]

/-- C6 witness: a far-away third click (no alt) appends the point and
recomputes the three-point hull. -/
theorem C6_collecting_click_witness :
    twoPtState.pts ≠ [] ∧
    ¬ (false = true ∨
       distSqr ⟨0, 0, 4⟩ (getP twoPtState.pts (twoPtState.pts.length - 1)) < 1 / 25) ∧
    convexhull (twoPtState.pts ++ [⟨0, 0, 4⟩]) = some [0, 1, 2] ∧
    handleVolumeClick envN ⟨0, 0, 4⟩ false false twoPtState r0 =
      some ([], { twoPtState with pts := twoPtState.pts ++ [⟨0, 0, 4⟩],
                                  hull := [0, 1, 2] }, r0) :=
  ⟨by decide, by decide, by decide,
   ((C6_collecting_click envN ⟨0, 0, 4⟩ false twoPtState r0 (by decide)).2
      (by decide)).2 [0, 1, 2] (by decide)⟩

/-- C9 (code bug): on the colinear input cPts the gift-wrap loop never
terminates: the wrap orbit from the lower-leftmost index 2 falls into
the cycle 0 → 1 → 0 and never returns to 2, so the do-while condition
endpt != out[0] never becomes false.  Accordingly the fuel-indexed
embedding exhausts its budget. -/
theorem C9_colinear_divergence :
    convexhull cPts = none ∧ ¬ loopTerminates cPts := by
  refine ⟨by decide, ?_⟩
  rintro ⟨k, hk, hfix⟩
  have hll : lowLeft cPts = 2 := by decide
  have haux : ∀ n : Nat, (nextPt cPts)^[n + 1] (lowLeft cPts) = 0 ∨
      (nextPt cPts)^[n + 1] (lowLeft cPts) = 1 := by
    intro n
    induction n with
    | zero =>
      left
      rw [Function.iterate_one, hll]
      decide
    | succ m ih =>
      rw [Function.iterate_succ_apply']
      rcases ih with h | h
      · right; rw [h]; decide
      · left; rw [h]; decide
  obtain ⟨m, rfl⟩ : ∃ m, k = m + 1 := ⟨k - 1, by omega⟩
  rcases haux m with h | h <;> rw [hfix, hll] at h <;> exact absurd h (by decide)

/-- In the non-editing branch, a click is ignored entirely. -/
lemma handleClick_not_editing (env : Env) (p : Vec3) (shift alt : Bool)
    (t : Tool) (r : Registry)
    (h1 : t.tstate.currentVolumeId ≠ 0) (h2 : t.editing = false) :
    handleClick env p shift alt t r = some ([], t, r) := by
  unfold handleClick
  dsimp only
  rw [if_neg h1, if_pos h2]

/-- In the editing branch, a click forwards to handleVolumeClick. -/
lemma handleClick_editing (env : Env) (p : Vec3) (shift alt : Bool)
    (t : Tool) (r : Registry)
    (hmode : (if t.tstate.currentVolumeId = 0 then true else t.editing) = true) :
    handleClick env p shift alt t r =
      match handleVolumeClick env p shift alt t.tstate r with
      | some tsr => some (tsr.1, ⟨true, tsr.2.1⟩, tsr.2.2)
      | none => none := by
  unfold handleClick
  dsimp only
  rw [hmode]
  rw [if_neg (by decide)]

/-- handleVolumeClick never installs a selection: from an unselected
session every outcome is still unselected. -/
lemma hvc_id_zero (env : Env) (p : Vec3) (shift alt : Bool)
    (s : ToolState) (r : Registry) (out : List Nat × ToolState × Registry)
    (h0 : s.currentVolumeId = 0)
    (hs : handleVolumeClick env p shift alt s r = some out) :
    out.2.1.currentVolumeId = 0 := by
  unfold handleVolumeClick at hs
  split at hs
  · split at hs
    · simp only [Option.some.injEq] at hs; subst hs; exact h0
    · simp only [Option.some.injEq] at hs; subst hs; exact h0
  · split at hs
    · simp only [Option.some.injEq] at hs; subst hs
      show (CreateShape env s r).2.1.currentVolumeId = 0
      rw [createShape_state]
      rfl
    · dsimp only at hs
      split at hs
      · split at hs
        · simp only [Option.some.injEq] at hs; subst hs; exact h0
        · exact Option.noConfusion hs
      · simp only [Option.some.injEq] at hs; subst hs; exact h0

/-- Every operation preserves the session invariant. -/
lemma inv_step (env : Env) (op : Op) (tr tr' : Tool × Registry)
    (h : Inv tr) (hs : step env op tr = some tr') : Inv tr' := by
  obtain ⟨he, hp⟩ := h
  cases op with
  | createNew =>
    simp only [step, Option.some.injEq] at hs
    subst hs
    exact ⟨fun _ => rfl, fun hne => absurd rfl hne⟩
  | select i =>
    simp only [step] at hs
    split at hs
    · simp only [Option.some.injEq] at hs; subst hs
      exact ⟨fun h => Bool.noConfusion h, fun _ => ⟨rfl, rfl⟩⟩
    · simp only [Option.some.injEq] at hs; subst hs
      exact ⟨he, hp⟩
  | deleteSel =>
    simp only [step] at hs
    split at hs
    · simp only [Option.some.injEq] at hs; subst hs
      rename_i hcond
      exact ⟨fun hetrue => absurd hetrue (by rw [hcond.1]; exact Bool.false_ne_true),
             fun hne => absurd rfl hne⟩
    · simp only [Option.some.injEq] at hs; subst hs
      exact ⟨he, hp⟩
  | commitBtn =>
    simp only [step] at hs
    split at hs
    · simp only [Option.some.injEq] at hs; subst hs
      refine ⟨fun h => Bool.noConfusion h, fun hne => absurd ?_ hne⟩
      show (CreateShape env tr.1.tstate tr.2).2.1.currentVolumeId = 0
      rw [createShape_state]
      rfl
    · simp only [Option.some.injEq] at hs; subst hs
      exact ⟨he, hp⟩
  | cancel =>
    simp only [step] at hs
    split at hs
    · simp only [Option.some.injEq] at hs; subst hs
      exact ⟨fun h => Bool.noConfusion h, fun hne => absurd rfl hne⟩
    · simp only [Option.some.injEq] at hs; subst hs
      exact ⟨he, hp⟩
  | saveEdits =>
    simp only [step] at hs
    split at hs
    · simp only [Option.some.injEq] at hs; subst hs
      exact ⟨he, hp⟩
    · simp only [Option.some.injEq] at hs; subst hs
      exact ⟨he, hp⟩
  | click p shift alt =>
    simp only [step] at hs
    by_cases hact : (if tr.1.tstate.currentVolumeId = 0 then true else tr.1.editing) = true
    · have hid0 : tr.1.tstate.currentVolumeId = 0 := by
        by_cases hz : tr.1.tstate.currentVolumeId = 0
        · exact hz
        · rw [if_neg hz] at hact
          exact he hact
      rw [handleClick_editing env p shift alt tr.1 tr.2 hact] at hs
      rcases hout : handleVolumeClick env p shift alt tr.1.tstate tr.2 with _ | out
      · rw [hout] at hs
        exact Option.noConfusion hs
      · rw [hout] at hs
        simp only [Option.some.injEq] at hs
        subst hs
        have hz' := hvc_id_zero env p shift alt tr.1.tstate tr.2 out hid0 hout
        exact ⟨fun _ => hz', fun hne => absurd hz' hne⟩
    · have hid : tr.1.tstate.currentVolumeId ≠ 0 := by
        intro hz
        rw [if_pos hz] at hact
        exact hact rfl
      have hed : tr.1.editing = false := by
        rw [if_neg hid] at hact
        exact Bool.eq_false_iff.mpr hact
      rw [handleClick_not_editing env p shift alt tr.1 tr.2 hid hed] at hs
      simp only [Option.some.injEq] at hs
      subst hs
      exact ⟨he, hp⟩

/-- C8: in every state reachable from a freshly initialized tool (or
from any state satisfying the session invariant), a non-zero
currentVolumeId implies the points and hull buffers are empty. -/
theorem C8_selected_implies_empty_buffers (env : Env) (ops : List Op)
    (tr tr' : Tool × Registry) (h0 : Inv tr)
    (hrun : runOps env ops tr = some tr') :
    Inv tr' ∧ (tr'.1.tstate.currentVolumeId ≠ 0 →
      tr'.1.tstate.pts = [] ∧ tr'.1.tstate.hull = []) := by
  have hinv : Inv tr' := by
    induction ops generalizing tr with
    | nil =>
      simp only [runOps, List.foldlM_nil, Option.pure_def, Option.some.injEq] at hrun
      subst hrun
      exact h0
    | cons op ops ih =>
      have hsplit : runOps env (op :: ops) tr = (step env op tr).bind (runOps env ops) := rfl
      rw [hsplit] at hrun
      rcases hstep : step env op tr with _ | tm
      · rw [hstep] at hrun
        exact Option.noConfusion hrun
      · rw [hstep] at hrun
        simp only [Option.some_bind] at hrun
        exact ih tm (inv_step env op tr tm ⟨h0.1, h0.2⟩ hstep) hrun
  exact ⟨hinv, hinv.2⟩

/-- The volume created by the concrete three-click commit session. -/
def v1 : ConvexVolume := ⟨1, "", [⟨0, 0, 0⟩, ⟨4, 0, 0⟩, ⟨0, 0, 4⟩], 3, 0, 5⟩

/-- Three picks, a commit, then selection of the created volume. -/
def c8ops : List Op := [.click ⟨0, 0, 0⟩ false false, .click ⟨4, 0, 0⟩ false false,
  .click ⟨0, 0, 4⟩ false false, .commitBtn, .select 0]

/-- The state reached by c8ops from a fresh tool: volume 1 selected,
buffers empty. -/
def c8res : Tool × Registry := (⟨false, ⟨[], [], 1, false, v1, "", 5, 0, 0, 3⟩⟩, ⟨[v1], 2⟩)

/-- C8 witness: a concrete create-and-select session ends with a
non-zero selection and empty point/hull buffers. -/
theorem C8_selected_implies_empty_buffers_witness :
    Inv (initTool 5 0 0 3, r0) ∧
    runOps envN c8ops (initTool 5 0 0 3, r0) = some c8res ∧
    (Inv c8res ∧ (c8res.1.tstate.currentVolumeId ≠ 0 →
      c8res.1.tstate.pts = [] ∧ c8res.1.tstate.hull = [])) :=
  ⟨by decide, by decide,
   C8_selected_implies_empty_buffers envN c8ops (initTool 5 0 0 3, r0) c8res
     (by decide) (by decide)⟩

end MQ2Nav
